import Mathlib

/-!
A verification development for a small Rust path tracer
(src/types.rs and src/main.rs).

Modelling conventions:
* Rust `f64` values are modelled as real numbers (`ℝ`); `f64::sqrt`,
  `min`, `abs` become `Real.sqrt`, `min`, `|·|`.
* The thread RNG is modelled as a stream `g : ℕ → Vec3` of the successive
  values produced by the sampling primitives (`random_unit_vector`,
  `random_in_unit_sphere`), together with a cursor index that each
  scatter call advances by the number of draws it consumes.
* `&mut` out-parameters become explicit results: a function that returns
  `bool` and may overwrite a `&mut HitRecord` is modelled as returning
  `Bool × HitRecord` (the record component being the argument record when
  nothing was written).
* Trait objects (`dyn Hittable`) are modelled as functions
  `Ray → ℝ → ℝ → Option HitRecord` (ray, t_min, t_max; `none` = no hit,
  record untouched).
-/

open scoped Classical

noncomputable section

/-- `Vec3` from src/types.rs: three `f64` components. -/
@[ext]
structure Vec3 where
  x : ℝ
  y : ℝ
  z : ℝ

/-- `impl ops::Add<Vec3> for Vec3`: componentwise addition. -/
instance : Add Vec3 :=
  ⟨fun a b => ⟨a.x + b.x, a.y + b.y, a.z + b.z⟩⟩

/-- `impl ops::Sub<Vec3> for Vec3`: componentwise subtraction. -/
instance : Sub Vec3 :=
  ⟨fun a b => ⟨a.x - b.x, a.y - b.y, a.z - b.z⟩⟩

/-- `impl ops::Mul<Vec3> for Vec3`: componentwise (Hadamard) product. -/
instance : Mul Vec3 :=
  ⟨fun a b => ⟨a.x * b.x, a.y * b.y, a.z * b.z⟩⟩

/-- `impl ops::Mul<f64> for Vec3`: scaling by a scalar on the right. -/
instance : HMul Vec3 ℝ Vec3 :=
  ⟨fun a k => ⟨a.x * k, a.y * k, a.z * k⟩⟩

/-- `impl ops::Div<f64> for Vec3`: componentwise division by a scalar. -/
instance : HDiv Vec3 ℝ Vec3 :=
  ⟨fun a k => ⟨a.x / k, a.y / k, a.z / k⟩⟩

/-- `impl ops::Neg for Vec3`: componentwise negation. -/
instance : Neg Vec3 :=
  ⟨fun a => ⟨-a.x, -a.y, -a.z⟩⟩

namespace Vec3

/-- `Vec3::zero()`. -/
def zero : Vec3 := ⟨0, 0, 0⟩

/-- `Vec3::one()`. -/
def one : Vec3 := ⟨1, 1, 1⟩

/-- `Vec3::length_squared`. -/
def length_squared (v : Vec3) : ℝ :=
  v.x * v.x + v.y * v.y + v.z * v.z

/-- `Vec3::length`. -/
def length (v : Vec3) : ℝ :=
  Real.sqrt v.length_squared

/-- `Vec3::dot`. -/
def dot (a b : Vec3) : ℝ :=
  a.x * b.x + a.y * b.y + a.z * b.z

/-- `Vec3::near_zero`: all components below `1e-8` in magnitude. -/
def near_zero (v : Vec3) : Prop :=
  |v.x| < 1e-8 ∧ |v.y| < 1e-8 ∧ |v.z| < 1e-8

/-- `Vec3::reflect(v, n) = v - n * 2 * v.dot(n)`. -/
def reflect (v n : Vec3) : Vec3 :=
  v - n * (2 : ℝ) * v.dot n

/-- `Vec3::refract` exactly as written in src/types.rs lines 427-432.
Note that the Rust expression `-uv.dot(n).min(1.0)` parses as
`-(min (uv.dot n) 1)` (method call binds tighter than unary minus), and
the parallel component is `n * sqrt |1 - |perp|²|` with NO negation. -/
def refract (uv n : Vec3) (etai_over_etat : ℝ) : Vec3 :=
  let cos_theta := -(min (uv.dot n) 1)
  let r_out_perp := (uv + n * cos_theta) * etai_over_etat
  let r_out_parallel := n * Real.sqrt |1 - r_out_perp.length_squared|
  r_out_perp + r_out_parallel

/-- The refract formula as the specification words it (Snell's law,
unit-vector form): `cos_theta = min (dot (-uv) n) 1`, perpendicular
component `etai_over_etat * (uv + cos_theta*n)`, parallel component
`-sqrt (max 0 (1 - |perp|²)) * n`, result the sum.  Modelled from the
spec, for comparison with `Vec3.refract` above. -/
def refractSpec (uv n : Vec3) (etai_over_etat : ℝ) : Vec3 :=
  let cos_theta := min ((-uv).dot n) 1
  let r_out_perp := (uv + n * cos_theta) * etai_over_etat
  let r_out_parallel := -(n * Real.sqrt (max 0 (1 - r_out_perp.length_squared)))
  r_out_perp + r_out_parallel

/-- `Vec3::unit_vector = v / v.length()`. -/
def unit_vector (v : Vec3) : Vec3 :=
  v / v.length

end Vec3

/-- Type alias `Point3 = Vec3` from src/types.rs. -/
abbrev Point3 := Vec3

/-- Type alias `Color = Vec3` from src/types.rs. -/
abbrev Color := Vec3

/-- `Ray` from src/types.rs. -/
structure Ray where
  origin : Point3
  direction : Vec3

/-- `Ray::at(t) = origin + direction * t`. -/
def Ray.at (r : Ray) (t : ℝ) : Point3 :=
  r.origin + r.direction * t

/-- The three `Material` implementations of src/types.rs, as a closed sum:
`LambertianMaterial { albedo }`, `MetalMaterial { albedo, fuzz }`,
`DielectricMaterial { ir }`. -/
inductive Material where
  | lambertian (albedo : Color)
  | metal (albedo : Color) (fuzz : ℝ)
  | dielectric (ir : ℝ)

/-- `HitRecord` from src/types.rs. -/
structure HitRecord where
  p : Point3
  normal : Vec3
  mat_ptr : Option Material
  t : ℝ
  front_face : Bool

/-- `HitRecord::blank()`. -/
def HitRecord.blank : HitRecord :=
  ⟨Vec3.zero, Vec3.zero, none, 0, false⟩

/-- `HitRecord::set_face_normal`: `front_face = dot(direction, outward) < 0`;
`normal = outward` if front-facing, else `-outward` (the `normal`
assignment reads the just-assigned `front_face`, i.e. tests the same
condition). -/
def HitRecord.set_face_normal (rec : HitRecord) (r : Ray) (outward_normal : Vec3) :
    HitRecord :=
  { rec with
    front_face := decide (r.direction.dot outward_normal < 0)
    normal :=
      if r.direction.dot outward_normal < 0 then outward_normal
      else -outward_normal }

/-- `LambertianMaterial::scatter` (src/types.rs lines 59-72).  The stream
`g` supplies the values of the successive `Vec3::random_unit_vector`
calls starting at cursor `i`; the result is
(return value, attenuation, scattered ray, advanced cursor).
Note the source draws once, tests THAT sum for near-zero, and in the
non-near-zero branch recomputes the direction with a SECOND draw. -/
def lambertianScatter (albedo : Color) (r_in : Ray) (rec : HitRecord)
    (g : ℕ → Vec3) (i : ℕ) : Bool × Color × Ray × ℕ :=
  let scatter_direction := rec.normal + g i
  if scatter_direction.near_zero then
    (true, albedo, ⟨rec.p, rec.normal⟩, i + 1)
  else
    (true, albedo, ⟨rec.p, rec.normal + g (i + 1)⟩, i + 2)

/-- `MetalMaterial::scatter` (src/types.rs lines 90-95).  `g i` is the
value of the `Vec3::random_in_unit_sphere` call. -/
def metalScatter (albedo : Color) (fuzz : ℝ) (r_in : Ray) (rec : HitRecord)
    (g : ℕ → Vec3) (i : ℕ) : Bool × Color × Ray × ℕ :=
  let reflected := Vec3.reflect r_in.direction.unit_vector rec.normal
  let scattered : Ray := ⟨rec.p, reflected + g i * fuzz⟩
  (decide (scattered.direction.dot rec.normal > 0), albedo, scattered, i + 1)

/-- `DielectricMaterial::scatter` (src/types.rs lines 111-124): draws no
randomness, attenuation `Color::one()`, always returns true. -/
def dielectricScatter (ir : ℝ) (r_in : Ray) (rec : HitRecord)
    (g : ℕ → Vec3) (i : ℕ) : Bool × Color × Ray × ℕ :=
  let attenuation := Vec3.one
  let refraction_ratio := if rec.front_face then 1 / ir else ir
  let unit_direction := r_in.direction.unit_vector
  let refracted := Vec3.refract unit_direction rec.normal refraction_ratio
  (true, attenuation, ⟨rec.p, refracted⟩, i)

/-- Dynamic dispatch of `Material::scatter` over the three variants. -/
def matScatter : Material → Ray → HitRecord → (ℕ → Vec3) → ℕ →
    Bool × Color × Ray × ℕ
  | .lambertian albedo, r_in, rec, g, i => lambertianScatter albedo r_in rec g i
  | .metal albedo fuzz, r_in, rec, g, i => metalScatter albedo fuzz r_in rec g i
  | .dielectric ir, r_in, rec, g, i => dielectricScatter ir r_in rec g i

/-- `Sphere` from src/types.rs. -/
structure Sphere where
  center : Point3
  radius : ℝ
  mat_ptr : Material

/-- The discriminant `half_b * half_b - a * c` computed by `Sphere::hit`
(src/types.rs lines 135-140), with `oc = origin - center`,
`a = |direction|²`, `half_b = dot(oc, direction)`, `c = |oc|² - radius²`. -/
def sphereDisc (s : Sphere) (r : Ray) : ℝ :=
  let oc := r.origin - s.center
  let a := r.direction.length_squared
  let half_b := oc.dot r.direction
  let c := oc.length_squared - s.radius * s.radius
  half_b * half_b - a * c

/-- The first root `(-half_b - sqrt discriminant) / a` tried by `Sphere::hit`. -/
def sphereRootA (s : Sphere) (r : Ray) : ℝ :=
  let oc := r.origin - s.center
  let a := r.direction.length_squared
  let half_b := oc.dot r.direction
  (-half_b - Real.sqrt (sphereDisc s r)) / a

/-- The second root `(-half_b + sqrt discriminant) / a` tried by `Sphere::hit`. -/
def sphereRootB (s : Sphere) (r : Ray) : ℝ :=
  let oc := r.origin - s.center
  let a := r.direction.length_squared
  let half_b := oc.dot r.direction
  (-half_b + Real.sqrt (sphereDisc s r)) / a

/-- The hit-record writes performed on a successful `Sphere::hit`
(src/types.rs lines 151-156 and 160-165, both branches are identical up
to the chosen root): `rec.t = root; rec.p = r.at(rec.t);
rec.normal = (rec.p - center) / radius;` then `set_face_normal` with the
same outward normal, then `rec.mat_ptr = Some(material)`. -/
def sphereRecord (s : Sphere) (r : Ray) (root : ℝ) (rec : HitRecord) : HitRecord :=
  let rec1 : HitRecord := { rec with t := root, p := r.at root }
  let rec2 : HitRecord := { rec1 with normal := (rec1.p - s.center) / s.radius }
  let outward_normal := (rec2.p - s.center) / s.radius
  let rec3 := rec2.set_face_normal r outward_normal
  { rec3 with mat_ptr := some s.mat_ptr }

/-- `Sphere::hit` (src/types.rs lines 134-169).  Returns the `bool`
result paired with the final contents of the `&mut HitRecord`. -/
def Sphere.hit (s : Sphere) (r : Ray) (t_min t_max : ℝ) (rec : HitRecord) :
    Bool × HitRecord :=
  if sphereDisc s r < 0 then
    (false, rec)
  else if sphereRootA s r < t_min ∨ t_max < sphereRootA s r then
    if sphereRootB s r < t_min ∨ t_max < sphereRootB s r then
      (false, rec)
    else
      (true, sphereRecord s r (sphereRootB s r) rec)
  else
    (true, sphereRecord s r (sphereRootA s r) rec)

/-- A `dyn Hittable` trait object: its `hit` method, as a function of the
ray and the parametric interval.  `none` models returning `false` with
the `&mut HitRecord` untouched; `some rec` models returning `true` after
writing `rec`. -/
abbrev Obj := Ray → ℝ → ℝ → Option HitRecord

/-- The `Hittable` contract stated by the specification for scene
members (spec sections 4.2 and 4.3): a reported hit lies in the queried
interval, and the report is the nearest candidate in the interval — so
that shrinking the upper bound keeps the same report while it stays in
range and drops it (to no hit) otherwise. -/
def LawfulObj (o : Obj) : Prop :=
  (∀ r t_min t_max rec, o r t_min t_max = some rec →
      t_min ≤ rec.t ∧ rec.t ≤ t_max) ∧
  (∀ r t_min t_max b, b ≤ t_max →
      o r t_min b =
        match o r t_min t_max with
        | some rec => if rec.t ≤ b then some rec else none
        | none => none)

/-- The loop of `HittableList::hit` (src/types.rs lines 187-209):
fold over the objects, keeping `closest_so_far` and the best record
(`none` while `hit_anything` is still false). -/
def hitListAux (r : Ray) (t_min : ℝ) :
    List Obj → ℝ → Option HitRecord → Option HitRecord
  | [], _, best => best
  | o :: rest, closest_so_far, best =>
    match o r t_min closest_so_far with
    | some temp_rec => hitListAux r t_min rest temp_rec.t (some temp_rec)
    | none => hitListAux r t_min rest closest_so_far best

/-- `HittableList::hit`: `closest_so_far` starts at `t_max`, nothing
written yet. -/
def hitList (objects : List Obj) (r : Ray) (t_min t_max : ℝ) :
    Option HitRecord :=
  hitListAux r t_min objects t_max none

/-- A trivial lawful hittable used to instantiate the scene theorems: it
reports the fixed record `rec0` whenever `rec0.t` lies in the queried
interval.  (A test double for the `Hittable` trait, not taken from the
source.) -/
def constObj (rec0 : HitRecord) : Obj :=
  fun _ t_min t_max => if t_min ≤ rec0.t ∧ rec0.t ≤ t_max then some rec0 else none

/-- `ray_color` from src/main.rs lines 28-50.  The scene (`&dyn Hittable`)
is modelled as `world : Ray → ℝ → Option HitRecord`, the trait object's
`hit` already applied to the upper bound: the Rust call passes
`t_max = f64::INFINITY`, which has no counterpart in `ℝ`, so only the
lower bound `0.0001` is explicit.  The RNG stream/cursor is threaded as
in `matScatter`; the result is the color paired with the final cursor. -/
def rayColor (world : Ray → ℝ → Option HitRecord) (g : ℕ → Vec3)
    (r : Ray) (depth : ℤ) (i : ℕ) : Color × ℕ :=
  if _h : depth ≤ 0 then
    (Vec3.zero, i)
  else
    match world r 0.0001 with
    | some rec =>
      match rec.mat_ptr with
      | some mat =>
        let s := matScatter mat r rec g i
        if s.1 then
          let rest := rayColor world g s.2.2.1 (depth - 1) s.2.2.2
          (s.2.1 * rest.1, rest.2)
        else
          (Vec3.zero, s.2.2.2)
      | none => (Vec3.zero, i)
    | none =>
      let unit_direction := r.direction.unit_vector
      let t := 0.5 * (unit_direction.y + 1)
      (Vec3.one * (1 - t) + Vec3.mk 0.5 0.7 1 * t, i)
termination_by depth.toNat
decreasing_by
  simp only [not_le] at _h
  omega

end

/-! ### Helper lemmas -/

@[simp]
theorem Vec3.add_def (a b : Vec3) : a + b = ⟨a.x + b.x, a.y + b.y, a.z + b.z⟩ := rfl

@[simp]
theorem Vec3.sub_def (a b : Vec3) : a - b = ⟨a.x - b.x, a.y - b.y, a.z - b.z⟩ := rfl

@[simp]
theorem Vec3.hadamard_def (a b : Vec3) : a * b = ⟨a.x * b.x, a.y * b.y, a.z * b.z⟩ := rfl

@[simp]
theorem Vec3.smul_def (a : Vec3) (k : ℝ) : a * k = ⟨a.x * k, a.y * k, a.z * k⟩ := rfl

@[simp]
theorem Vec3.div_def (a : Vec3) (k : ℝ) : a / k = ⟨a.x / k, a.y / k, a.z / k⟩ := rfl

@[simp]
theorem Vec3.neg_def (a : Vec3) : -a = ⟨-a.x, -a.y, -a.z⟩ := rfl

theorem Vec3.dot_neg (a b : Vec3) : a.dot (-b) = -(a.dot b) := by
  simp [Vec3.dot]
  ring

/-! ### Claim theorems -/

/-- C6: after `HitRecord::set_face_normal`, the stored normal satisfies
`dot(ray.direction, normal) ≤ 0`; `front_face` is true and the normal is
the unchanged outward normal exactly when
`dot(ray.direction, outward_normal) < 0`, and otherwise the normal is
the negated outward normal — the reported normal always points against
the ray direction. -/
theorem set_face_normal_orients_against_ray (rec : HitRecord) (r : Ray)
    (outward_normal : Vec3) :
    r.direction.dot (rec.set_face_normal r outward_normal).normal ≤ 0 ∧
    (r.direction.dot outward_normal < 0 →
      (rec.set_face_normal r outward_normal).front_face = true ∧
      (rec.set_face_normal r outward_normal).normal = outward_normal) ∧
    (¬ r.direction.dot outward_normal < 0 →
      (rec.set_face_normal r outward_normal).front_face = false ∧
      (rec.set_face_normal r outward_normal).normal = -outward_normal) := by
  by_cases h : r.direction.dot outward_normal < 0
  · have hfn : rec.set_face_normal r outward_normal =
        { rec with front_face := true, normal := outward_normal } := by
      unfold HitRecord.set_face_normal
      rw [decide_eq_true h, if_pos h]
    rw [hfn]
    exact ⟨le_of_lt h, fun _ => ⟨rfl, rfl⟩, fun hc => absurd h hc⟩
  · have hfn : rec.set_face_normal r outward_normal =
        { rec with front_face := false, normal := -outward_normal } := by
      unfold HitRecord.set_face_normal
      rw [decide_eq_false h, if_neg h]
    rw [hfn]
    refine ⟨?_, fun hc => absurd hc h, fun _ => ⟨rfl, rfl⟩⟩
    show r.direction.dot (-outward_normal) ≤ 0
    rw [Vec3.dot_neg, neg_nonpos]
    exact not_lt.mp h

/-- Witness for C6: a front-facing hit, ray direction `(0,0,-1)` against
outward normal `(0,0,1)`. -/
theorem set_face_normal_orients_against_ray_witness :
    Vec3.dot (⟨0, 0, -1⟩ : Vec3) ⟨0, 0, 1⟩ < 0 ∧
    (HitRecord.blank.set_face_normal ⟨Vec3.zero, ⟨0, 0, -1⟩⟩ ⟨0, 0, 1⟩).front_face =
      true ∧
    (HitRecord.blank.set_face_normal ⟨Vec3.zero, ⟨0, 0, -1⟩⟩ ⟨0, 0, 1⟩).normal =
      ⟨0, 0, 1⟩ ∧
    (⟨Vec3.zero, ⟨0, 0, -1⟩⟩ : Ray).direction.dot
      (HitRecord.blank.set_face_normal ⟨Vec3.zero, ⟨0, 0, -1⟩⟩ ⟨0, 0, 1⟩).normal ≤ 0 := by
  have hdot : Vec3.dot (⟨0, 0, -1⟩ : Vec3) ⟨0, 0, 1⟩ < 0 := by
    show (0 : ℝ) * 0 + 0 * 0 + -1 * 1 < 0
    norm_num
  obtain ⟨hle, hpos, -⟩ := set_face_normal_orients_against_ray HitRecord.blank
    ⟨Vec3.zero, ⟨0, 0, -1⟩⟩ ⟨0, 0, 1⟩
  obtain ⟨hff, hnormal⟩ := hpos hdot
  exact ⟨hdot, hff, hnormal, hle⟩

/-- C7: whenever the discriminant computed by `Sphere::hit` is negative,
`hit` returns false and the passed hit record is returned unchanged in
every field. -/
theorem sphere_hit_neg_disc_no_write (s : Sphere) (r : Ray) (t_min t_max : ℝ)
    (rec : HitRecord) (hd : sphereDisc s r < 0) :
    s.hit r t_min t_max rec = (false, rec) := by
  unfold Sphere.hit
  rw [if_pos hd]

/-- Witness for C7 at a concrete missing ray: sphere of radius 1 at the
origin, ray from (5,0,0) pointing along +y; the discriminant is -24. -/
theorem sphere_hit_neg_disc_no_write_witness :
    sphereDisc ⟨⟨0, 0, 0⟩, 1, .dielectric 1⟩ ⟨⟨5, 0, 0⟩, ⟨0, 1, 0⟩⟩ < 0 ∧
    Sphere.hit ⟨⟨0, 0, 0⟩, 1, .dielectric 1⟩ ⟨⟨5, 0, 0⟩, ⟨0, 1, 0⟩⟩ 0 10
        HitRecord.blank = (false, HitRecord.blank) := by
  have hd : sphereDisc ⟨⟨0, 0, 0⟩, 1, .dielectric 1⟩ ⟨⟨5, 0, 0⟩, ⟨0, 1, 0⟩⟩ < 0 := by
    norm_num [sphereDisc, Vec3.dot, Vec3.length_squared]
  exact ⟨hd, sphere_hit_neg_disc_no_write _ _ _ _ _ hd⟩

/-- C8: `ray_color` called with a non-positive bounce budget returns
exactly black, whatever the scene, the RNG stream, and the ray. -/
theorem ray_color_depth_exhausted (world : Ray → ℝ → Option HitRecord)
    (g : ℕ → Vec3) (r : Ray) (depth : ℤ) (i : ℕ) (h : depth ≤ 0) :
    rayColor world g r depth i = (Vec3.zero, i) := by
  unfold rayColor
  rw [dif_pos h]

/-- Witness for C8 at `depth = 0` with an empty-scene stub. -/
theorem ray_color_depth_exhausted_witness :
    rayColor (fun _ _ => none) (fun _ => Vec3.zero) ⟨Vec3.zero, ⟨0, 0, -1⟩⟩ 0 0 =
      (Vec3.zero, 0) :=
  ray_color_depth_exhausted _ _ _ _ _ le_rfl

/-- C10: `DielectricMaterial::scatter` always reports a scatter and
always sets the attenuation to exactly white `(1,1,1)`, for every index
of refraction and every hit record (front-facing or not). -/
theorem dielectric_always_scatters_white (ir : ℝ) (r_in : Ray) (rec : HitRecord)
    (g : ℕ → Vec3) (i : ℕ) :
    (dielectricScatter ir r_in rec g i).1 = true ∧
    (dielectricScatter ir r_in rec g i).2.1 = ⟨1, 1, 1⟩ :=
  ⟨rfl, rfl⟩

/-- C9: whichever material variant scatters, the scattered ray's origin
is the hit record's intersection point `rec.p`. -/
theorem scatter_origin_is_hit_point (m : Material) (r_in : Ray) (rec : HitRecord)
    (g : ℕ → Vec3) (i : ℕ) (h : (matScatter m r_in rec g i).1 = true) :
    (matScatter m r_in rec g i).2.2.1.origin = rec.p := by
  cases m with
  | lambertian albedo =>
    simp only [matScatter, lambertianScatter]
    split <;> rfl
  | metal albedo fuzz => rfl
  | dielectric ir => rfl

/-- Witness for C9: a concrete dielectric scatter event. -/
theorem scatter_origin_is_hit_point_witness :
    (matScatter (.dielectric 1) ⟨⟨2, 3, 4⟩, ⟨0, 0, -1⟩⟩ HitRecord.blank
        (fun _ => Vec3.zero) 0).1 = true ∧
    (matScatter (.dielectric 1) ⟨⟨2, 3, 4⟩, ⟨0, 0, -1⟩⟩ HitRecord.blank
        (fun _ => Vec3.zero) 0).2.2.1.origin = HitRecord.blank.p :=
  ⟨rfl, scatter_origin_is_hit_point _ _ _ _ _ rfl⟩

/-- C4: `MetalMaterial::scatter` absorbs (returns false) exactly when the
outgoing direction `reflect(unit(incoming), normal) + fuzz * (random
in-sphere point)` has non-positive dot product with the surface normal;
and with `fuzz = 0`, an incoming direction `(0,0,-1)` against normal
`(0,0,1)` scatters with the exact reflection direction `(0,0,1)`. -/
theorem metal_absorbs_iff_nonpositive_dot :
    (∀ (albedo : Color) (fuzz : ℝ) (r_in : Ray) (rec : HitRecord)
        (g : ℕ → Vec3) (i : ℕ),
      (metalScatter albedo fuzz r_in rec g i).1 = false ↔
        (Vec3.reflect r_in.direction.unit_vector rec.normal + g i * fuzz).dot
          rec.normal ≤ 0) ∧
    metalScatter ⟨0.8, 0.8, 0.8⟩ 0 ⟨Vec3.zero, ⟨0, 0, -1⟩⟩
        { HitRecord.blank with normal := ⟨0, 0, 1⟩ } (fun _ => ⟨1, 2, 3⟩) 0 =
      (true, ⟨0.8, 0.8, 0.8⟩, ⟨Vec3.zero, ⟨0, 0, 1⟩⟩, 1) := by
  constructor
  · intro albedo fuzz r_in rec g i
    show decide ((Vec3.reflect r_in.direction.unit_vector rec.normal +
        g i * fuzz).dot rec.normal > 0) = false ↔ _
    rw [decide_eq_false_iff_not]
    exact not_lt
  · have hlen : Vec3.length ⟨0, 0, -1⟩ = 1 := by
      rw [Vec3.length, Vec3.length_squared]
      norm_num
    have hunit : Vec3.unit_vector ⟨0, 0, -1⟩ = ⟨0, 0, -1⟩ := by
      rw [Vec3.unit_vector, hlen]
      norm_num
    have hrefl : Vec3.reflect (Vec3.unit_vector ⟨0, 0, -1⟩) ⟨0, 0, 1⟩ = ⟨0, 0, 1⟩ := by
      rw [hunit]
      norm_num [Vec3.reflect, Vec3.dot]
    show (decide ((Vec3.reflect (Vec3.unit_vector ⟨0, 0, -1⟩) ⟨0, 0, 1⟩ +
            (⟨1, 2, 3⟩ : Vec3) * (0 : ℝ)).dot ⟨0, 0, 1⟩ > 0),
          (⟨0.8, 0.8, 0.8⟩ : Color),
          (⟨Vec3.zero, Vec3.reflect (Vec3.unit_vector ⟨0, 0, -1⟩) ⟨0, 0, 1⟩ +
            (⟨1, 2, 3⟩ : Vec3) * (0 : ℝ)⟩ : Ray), 1) =
        (true, ⟨0.8, 0.8, 0.8⟩, ⟨Vec3.zero, ⟨0, 0, 1⟩⟩, 1)
    rw [hrefl]
    have hadd : (⟨0, 0, 1⟩ : Vec3) + (⟨1, 2, 3⟩ : Vec3) * (0 : ℝ) = ⟨0, 0, 1⟩ := by
      norm_num
    rw [hadd]
    have hdot : (⟨0, 0, 1⟩ : Vec3).dot ⟨0, 0, 1⟩ = 1 := by
      show (0 : ℝ) * 0 + 0 * 0 + 1 * 1 = 1
      norm_num
    rw [hdot]
    norm_num [Prod.mk.injEq, decide_eq_true_eq]

/-- C1 (code bug): `Vec3::refract` does not compute the claimed Snell
formula.  At the unit incoming direction `(0,0,-1)` against normal
`(0,0,1)` with ratio 1/2, the code returns `(0,0,1)` (the parallel
component is `+sqrt(|1-|perp|²|) * n`, the negation is missing), while
the claimed formula gives `(0,0,-1)`. -/
theorem refract_failing_input_eval :
    Vec3.length_squared ⟨0, 0, -1⟩ = 1 ∧
    Vec3.refract ⟨0, 0, -1⟩ ⟨0, 0, 1⟩ (1 / 2) = ⟨0, 0, 1⟩ ∧
    Vec3.refractSpec ⟨0, 0, -1⟩ ⟨0, 0, 1⟩ (1 / 2) = ⟨0, 0, -1⟩ ∧
    Vec3.refract ⟨0, 0, -1⟩ ⟨0, 0, 1⟩ (1 / 2) ≠
      Vec3.refractSpec ⟨0, 0, -1⟩ ⟨0, 0, 1⟩ (1 / 2) := by
  have h1 : Vec3.refract ⟨0, 0, -1⟩ ⟨0, 0, 1⟩ (1 / 2) = ⟨0, 0, 1⟩ := by
    simp only [Vec3.refract, Vec3.dot, Vec3.length_squared, Vec3.smul_def,
      Vec3.add_def, Vec3.mk.injEq]
    norm_num [min_def, Real.sqrt_one]
  have h2 : Vec3.refractSpec ⟨0, 0, -1⟩ ⟨0, 0, 1⟩ (1 / 2) = ⟨0, 0, -1⟩ := by
    simp only [Vec3.refractSpec, Vec3.dot, Vec3.length_squared, Vec3.smul_def,
      Vec3.add_def, Vec3.neg_def, Vec3.mk.injEq]
    norm_num [min_def, max_def, Real.sqrt_one]
  refine ⟨by norm_num [Vec3.length_squared], h1, h2, ?_⟩
  rw [h1, h2]
  intro hcontra
  have hz := congrArg Vec3.z hcontra
  norm_num at hz

/-- C3 (code bug): `LambertianMaterial::scatter` always scatters with
attenuation equal to the albedo, but the near-zero fallback guards the
WRONG sample: the source tests `normal + (first draw)` and then uses
`normal + (second draw)`.  With normal `(0,0,1)`, first draw `(1,0,0)`
and second draw `(0,0,-1)` (both unit vectors), the emitted direction is
the near-zero vector `(0,0,0)`, not the bare normal. -/
theorem lambertian_scatter_eval :
    (∀ (albedo : Color) (r_in : Ray) (rec : HitRecord) (g : ℕ → Vec3) (i : ℕ),
      (lambertianScatter albedo r_in rec g i).1 = true ∧
      (lambertianScatter albedo r_in rec g i).2.1 = albedo) ∧
    (Vec3.length_squared ⟨1, 0, 0⟩ = 1 ∧ Vec3.length_squared ⟨0, 0, -1⟩ = 1 ∧
     ¬ Vec3.near_zero (Vec3.mk 0 0 1 + ⟨1, 0, 0⟩) ∧
     (lambertianScatter ⟨1, 1, 1⟩ ⟨Vec3.zero, Vec3.zero⟩
        { HitRecord.blank with normal := ⟨0, 0, 1⟩ }
        (fun j => if j = 0 then ⟨1, 0, 0⟩ else ⟨0, 0, -1⟩) 0).2.2.1.direction =
       ⟨0, 0, 0⟩ ∧
     Vec3.near_zero ⟨0, 0, 0⟩ ∧
     (Vec3.mk 0 0 0) ≠ Vec3.mk 0 0 1) := by
  refine ⟨fun albedo r_in rec g i => ?_, ?_, ?_, ?_, ?_, ?_, ?_⟩
  · have hshape : lambertianScatter albedo r_in rec g i =
        if (rec.normal + g i).near_zero then
          (true, albedo, ⟨rec.p, rec.normal⟩, i + 1)
        else
          (true, albedo, ⟨rec.p, rec.normal + g (i + 1)⟩, i + 2) := rfl
    rw [hshape]
    split <;> exact ⟨rfl, rfl⟩
  · norm_num [Vec3.length_squared]
  · norm_num [Vec3.length_squared]
  · norm_num [Vec3.near_zero]
  · have hno : ¬ ((⟨0, 0, 1⟩ : Vec3) + ⟨1, 0, 0⟩).near_zero := by
      norm_num [Vec3.near_zero]
    have hshape : lambertianScatter ⟨1, 1, 1⟩ ⟨Vec3.zero, Vec3.zero⟩
        { HitRecord.blank with normal := ⟨0, 0, 1⟩ }
        (fun j => if j = 0 then ⟨1, 0, 0⟩ else ⟨0, 0, -1⟩) 0 =
        if ((⟨0, 0, 1⟩ : Vec3) + ⟨1, 0, 0⟩).near_zero then
          (true, ⟨1, 1, 1⟩, ⟨Vec3.zero, ⟨0, 0, 1⟩⟩, 1)
        else
          (true, ⟨1, 1, 1⟩, ⟨Vec3.zero, (⟨0, 0, 1⟩ : Vec3) + ⟨0, 0, -1⟩⟩, 2) := rfl
    rw [hshape, if_neg hno]
    show (⟨0, 0, 1⟩ : Vec3) + ⟨0, 0, -1⟩ = ⟨0, 0, 0⟩
    norm_num
  · norm_num [Vec3.near_zero]
  · intro hcontra
    have hz := congrArg Vec3.z hcontra
    norm_num at hz

/-! ### Lemmas about the `HittableList::hit` fold -/

theorem hitListAux_ne_none_of_some (r : Ray) (t_min : ℝ) :
    ∀ (objs : List Obj) (closest : ℝ) (rec : HitRecord),
      hitListAux r t_min objs closest (some rec) ≠ none := by
  intro objs
  induction objs with
  | nil => intro closest rec h; exact Option.noConfusion h
  | cons o rest ih =>
    intro closest rec
    cases h : o r t_min closest with
    | some temp => simp only [hitListAux, h]; exact ih _ _
    | none => simp only [hitListAux, h]; exact ih _ _

theorem hitListAux_none_iff (r : Ray) (t_min : ℝ) :
    ∀ (objs : List Obj) (closest : ℝ) (best : Option HitRecord),
      hitListAux r t_min objs closest best = none ↔
        best = none ∧ ∀ o ∈ objs, o r t_min closest = none := by
  intro objs
  induction objs with
  | nil => intro closest best; simp [hitListAux]
  | cons o rest ih =>
    intro closest best
    cases h : o r t_min closest with
    | some temp =>
      simp only [hitListAux, h]
      constructor
      · intro hn
        exact absurd hn (hitListAux_ne_none_of_some r t_min rest temp.t temp)
      · rintro ⟨-, hall⟩
        have := hall o (List.mem_cons_self o rest)
        rw [h] at this
        exact Option.noConfusion this
    | none =>
      simp only [hitListAux, h]
      rw [ih]
      simp [List.forall_mem_cons, h]

theorem hitListAux_min (r : Ray) (t_min : ℝ) :
    ∀ (objs : List Obj), (∀ o ∈ objs, LawfulObj o) →
      ∀ (closest : ℝ) (best : Option HitRecord) (recf : HitRecord),
        (∀ rec, best = some rec → rec.t ≤ closest) →
        hitListAux r t_min objs closest best = some recf →
        recf.t ≤ closest ∧
        (best = some recf ∨ ∃ o ∈ objs, o r t_min closest = some recf) ∧
        (∀ o ∈ objs, ∀ rec', o r t_min closest = some rec' → recf.t ≤ rec'.t) := by
  intro objs
  induction objs with
  | nil =>
    intro _ closest best recf hbest hrun
    simp only [hitListAux] at hrun
    refine ⟨hbest recf hrun, Or.inl hrun, ?_⟩
    intro o ho
    exact absurd ho (List.not_mem_nil o)
  | cons o rest ih =>
    intro hlaws closest best recf hbest hrun
    have hlawo : LawfulObj o := hlaws o (List.mem_cons_self o rest)
    have hlawrest : ∀ o' ∈ rest, LawfulObj o' :=
      fun o' ho' => hlaws o' (List.mem_cons_of_mem o ho')
    cases h : o r t_min closest with
    | some temp =>
      simp only [hitListAux, h] at hrun
      have htemp := hlawo.1 r t_min closest temp h
      obtain ⟨h1, h2, h3⟩ := ih hlawrest temp.t (some temp) recf
        (fun rec hr => by rw [Option.some.injEq] at hr; rw [hr]) hrun
      refine ⟨h1.trans htemp.2, ?_, ?_⟩
      · rcases h2 with h2 | ⟨o', ho', h2⟩
        · rw [Option.some.injEq] at h2
          exact Or.inr ⟨o, List.mem_cons_self o rest, by rw [h, h2]⟩
        · have hn := (hlawrest o' ho').2 r t_min closest temp.t htemp.2
          rw [h2] at hn
          cases hc : o' r t_min closest with
          | none =>
            rw [hc] at hn
            exact Option.noConfusion (show some recf = (none : Option HitRecord) from hn)
          | some rec2 =>
            rw [hc] at hn
            have hn2 : some recf = if rec2.t ≤ temp.t then some rec2 else none := hn
            by_cases hle : rec2.t ≤ temp.t
            · rw [if_pos hle, Option.some.injEq] at hn2
              exact Or.inr ⟨o', List.mem_cons_of_mem o ho', by rw [hc, hn2]⟩
            · rw [if_neg hle] at hn2
              exact Option.noConfusion hn2
      · intro o' ho' rec' hsome
        rcases List.mem_cons.mp ho' with rfl | ho'
        · rw [h, Option.some.injEq] at hsome
          rw [hsome] at h1
          exact h1
        · have hn := (hlawrest o' ho').2 r t_min closest temp.t htemp.2
          rw [hsome] at hn
          have hn2 : o' r t_min temp.t = if rec'.t ≤ temp.t then some rec' else none := hn
          by_cases hle : rec'.t ≤ temp.t
          · rw [if_pos hle] at hn2
            exact h3 o' ho' rec' hn2
          · exact h1.trans (not_le.mp hle).le
    | none =>
      simp only [hitListAux, h] at hrun
      obtain ⟨h1, h2, h3⟩ := ih hlawrest closest best recf hbest hrun
      refine ⟨h1, ?_, ?_⟩
      · rcases h2 with h2 | ⟨o', ho', hs⟩
        · exact Or.inl h2
        · exact Or.inr ⟨o', List.mem_cons_of_mem o ho', hs⟩
      · intro o' ho' rec' hsome
        rcases List.mem_cons.mp ho' with rfl | ho'
        · rw [h] at hsome
          exact Option.noConfusion hsome
        · exact h3 o' ho' rec' hsome

theorem lawfulObj_constObj (rec0 : HitRecord) : LawfulObj (constObj rec0) := by
  constructor
  · intro r t_min t_max rec h
    unfold constObj at h
    split_ifs at h with hc
    rw [Option.some.injEq] at h
    rw [h] at hc
    exact hc
  · intro r t_min t_max b hb
    by_cases hc : t_min ≤ rec0.t ∧ rec0.t ≤ t_max
    · by_cases hcb : rec0.t ≤ b
      · simp [constObj, hc, hcb, hc.1]
      · have hlhs : ¬ (t_min ≤ rec0.t ∧ rec0.t ≤ b) := fun hx => hcb hx.2
        simp [constObj, hc, hcb, hlhs]
    · have hlhs : ¬ (t_min ≤ rec0.t ∧ rec0.t ≤ b) :=
        fun hx => hc ⟨hx.1, hx.2.trans hb⟩
      simp [constObj, hc, hlhs]

/-- C2: for scene members obeying the `Hittable` contract,
`HittableList::hit` misses exactly when every member misses on the full
interval, and any reported record is one reported by some member on the
full interval and has the globally smallest parametric distance `t`
among all members' reports in `[t_min, t_max]`. -/
theorem hittableList_hit_nearest (objects : List Obj) (r : Ray) (t_min t_max : ℝ)
    (hlaw : ∀ o ∈ objects, LawfulObj o) :
    (hitList objects r t_min t_max = none ↔
      ∀ o ∈ objects, o r t_min t_max = none) ∧
    ∀ rec, hitList objects r t_min t_max = some rec →
      (∃ o ∈ objects, o r t_min t_max = some rec) ∧
      ∀ o ∈ objects, ∀ rec', o r t_min t_max = some rec' → rec.t ≤ rec'.t := by
  constructor
  · rw [hitList, hitListAux_none_iff]
    simp
  · intro rec hrun
    obtain ⟨-, h2, h3⟩ := hitListAux_min r t_min objects hlaw t_max none rec
      (fun _ h => Option.noConfusion h) hrun
    rcases h2 with h2 | h2
    · exact Option.noConfusion h2
    · exact ⟨h2, h3⟩

/-- Witness for C2: two constant hittables reporting at `t = 2` and
`t = 1` on the interval `[0, 10]`. -/
theorem hittableList_hit_nearest_witness :
    (hitList [constObj ⟨Vec3.zero, Vec3.zero, none, 2, false⟩,
              constObj ⟨Vec3.zero, Vec3.zero, none, 1, false⟩]
        ⟨Vec3.zero, ⟨0, 0, -1⟩⟩ 0 10 = none ↔
      ∀ o ∈ [constObj ⟨Vec3.zero, Vec3.zero, none, 2, false⟩,
             constObj ⟨Vec3.zero, Vec3.zero, none, 1, false⟩],
        o ⟨Vec3.zero, ⟨0, 0, -1⟩⟩ 0 10 = none) ∧
    ∀ rec, hitList [constObj ⟨Vec3.zero, Vec3.zero, none, 2, false⟩,
                    constObj ⟨Vec3.zero, Vec3.zero, none, 1, false⟩]
        ⟨Vec3.zero, ⟨0, 0, -1⟩⟩ 0 10 = some rec →
      (∃ o ∈ [constObj ⟨Vec3.zero, Vec3.zero, none, 2, false⟩,
              constObj ⟨Vec3.zero, Vec3.zero, none, 1, false⟩],
        o ⟨Vec3.zero, ⟨0, 0, -1⟩⟩ 0 10 = some rec) ∧
      ∀ o ∈ [constObj ⟨Vec3.zero, Vec3.zero, none, 2, false⟩,
             constObj ⟨Vec3.zero, Vec3.zero, none, 1, false⟩],
        ∀ rec', o ⟨Vec3.zero, ⟨0, 0, -1⟩⟩ 0 10 = some rec' → rec.t ≤ rec'.t :=
  hittableList_hit_nearest _ _ _ _ (by
    intro o ho
    rcases List.mem_cons.mp ho with rfl | ho
    · exact lawfulObj_constObj _
    · rcases List.mem_cons.mp ho with rfl | ho
      · exact lawfulObj_constObj _
      · exact absurd ho (List.not_mem_nil o))

/-! ### Sphere intersection: root selection (C5) -/

/-- C5: when the discriminant is non-negative, `Sphere::hit` takes the
smaller root `(-half_b - sqrt d)/a` if it lies in `[t_min, t_max]`, else
the larger root `(-half_b + sqrt d)/a` if that lies in range, else
reports no hit; a successful hit writes `t = root`, `p = ray.at(t)`, the
outward normal `(p - center)/radius` oriented by the front-face test,
and binds the sphere's material. -/
theorem sphere_hit_root_selection (s : Sphere) (r : Ray) (t_min t_max : ℝ)
    (rec : HitRecord) (hd : 0 ≤ sphereDisc s r) :
    ((t_min ≤ sphereRootA s r ∧ sphereRootA s r ≤ t_max) →
      s.hit r t_min t_max rec = (true, sphereRecord s r (sphereRootA s r) rec)) ∧
    (¬ (t_min ≤ sphereRootA s r ∧ sphereRootA s r ≤ t_max) →
      (t_min ≤ sphereRootB s r ∧ sphereRootB s r ≤ t_max) →
      s.hit r t_min t_max rec = (true, sphereRecord s r (sphereRootB s r) rec)) ∧
    (¬ (t_min ≤ sphereRootA s r ∧ sphereRootA s r ≤ t_max) →
      ¬ (t_min ≤ sphereRootB s r ∧ sphereRootB s r ≤ t_max) →
      s.hit r t_min t_max rec = (false, rec)) ∧
    ∀ root, sphereRecord s r root rec =
      { p := r.at root
        normal :=
          if r.direction.dot ((r.at root - s.center) / s.radius) < 0
          then (r.at root - s.center) / s.radius
          else -((r.at root - s.center) / s.radius)
        mat_ptr := some s.mat_ptr
        t := root
        front_face :=
          decide (r.direction.dot ((r.at root - s.center) / s.radius) < 0) } := by
  have hkey : ∀ x : ℝ, ¬ (x < t_min ∨ t_max < x) ↔ (t_min ≤ x ∧ x ≤ t_max) := by
    intro x
    rw [not_or, not_lt, not_lt]
  refine ⟨?_, ?_, ?_, fun root => rfl⟩
  · intro hA
    unfold Sphere.hit
    rw [if_neg (not_lt.mpr hd), if_neg ((hkey _).mpr hA)]
  · intro hA hB
    unfold Sphere.hit
    rw [if_neg (not_lt.mpr hd),
      if_pos (not_not.mp fun hn => hA ((hkey _).mp hn)),
      if_neg ((hkey _).mpr hB)]
  · intro hA hB
    unfold Sphere.hit
    rw [if_neg (not_lt.mpr hd),
      if_pos (not_not.mp fun hn => hA ((hkey _).mp hn)),
      if_pos (not_not.mp fun hn => hB ((hkey _).mp hn))]

/-- Witness for C5: unit sphere at the origin, ray from `(0,0,2)` toward
`(0,0,-1)`; the discriminant is 1 and the smaller root `t = 1` is chosen. -/
theorem sphere_hit_root_selection_witness :
    0 ≤ sphereDisc ⟨⟨0, 0, 0⟩, 1, .dielectric 1⟩ ⟨⟨0, 0, 2⟩, ⟨0, 0, -1⟩⟩ ∧
    sphereRootA ⟨⟨0, 0, 0⟩, 1, .dielectric 1⟩ ⟨⟨0, 0, 2⟩, ⟨0, 0, -1⟩⟩ = 1 ∧
    Sphere.hit ⟨⟨0, 0, 0⟩, 1, .dielectric 1⟩ ⟨⟨0, 0, 2⟩, ⟨0, 0, -1⟩⟩ 0 10
        HitRecord.blank =
      (true, sphereRecord ⟨⟨0, 0, 0⟩, 1, .dielectric 1⟩ ⟨⟨0, 0, 2⟩, ⟨0, 0, -1⟩⟩
        (sphereRootA ⟨⟨0, 0, 0⟩, 1, .dielectric 1⟩ ⟨⟨0, 0, 2⟩, ⟨0, 0, -1⟩⟩)
        HitRecord.blank) := by
  have hdisc : sphereDisc ⟨⟨0, 0, 0⟩, 1, .dielectric 1⟩ ⟨⟨0, 0, 2⟩, ⟨0, 0, -1⟩⟩ = 1 := by
    norm_num [sphereDisc, Vec3.dot, Vec3.length_squared]
  have hrootA : sphereRootA ⟨⟨0, 0, 0⟩, 1, .dielectric 1⟩ ⟨⟨0, 0, 2⟩, ⟨0, 0, -1⟩⟩ = 1 := by
    rw [sphereRootA, hdisc]
    norm_num [Vec3.dot, Vec3.length_squared, Real.sqrt_one]
  refine ⟨by rw [hdisc]; norm_num, hrootA, ?_⟩
  exact (sphere_hit_root_selection _ _ _ _ _ (by rw [hdisc]; norm_num)).1
    (by rw [hrootA]; norm_num)
